import Mathlib

/-!
Shallow embedding of `mapillary_tools/process_video.py` and proofs about it.

Conventions of the embedding:
* Python strings are `List Char`; Python byte streams are `List Nat` (one
  entry per byte).
* Absolute timestamps (Python `datetime.datetime`) are rational numbers of
  seconds since 1970-01-01T00:00:00 (UTC, proleptic Gregorian);
  `datetime.timedelta` values are rational seconds.  Rationals are exact,
  which models `datetime`'s exact microsecond arithmetic on the integral and
  decimal inputs used here.
* Fallible Python code (raising exceptions) is modelled with `Option` /
  `Except`.
* External collaborators (ffprobe output, the pymp4 box parser, the EXIF
  writer) enter as explicit parameters or are modelled from the spec where
  noted.
-/

namespace ProcessVideo

/-- Coerce a Lean string literal to the `List Char` representation. -/
def chars (s : String) : List Char := s.data

/-- The character set of the Python call `str.rstrip(".jpg")`: Python's
`rstrip` strips any run of trailing characters drawn from this set (it does
not remove the suffix `".jpg"` as a unit). -/
def jpgChars : List Char := ['.', 'j', 'p', 'g']

/-- Python `s.rstrip(cs)`: remove all trailing characters belonging to `cs`. -/
def pyRstripSet (cs s : List Char) : List Char :=
  (s.reverse.dropWhile (fun c => cs.contains c)).reverse

/-- Python `s.lstrip(cs)`: remove all leading characters belonging to `cs`. -/
def pyLstripSet (cs s : List Char) : List Char :=
  s.dropWhile (fun c => cs.contains c)

/-- Python `s.replace(pat, "")`: delete every non-overlapping occurrence of
`pat`, scanning left to right. -/
def pyRemoveAll (pat : List Char) (s : List Char) : List Char :=
  match s with
  | [] => []
  | c :: rest =>
    if h : pat ≠ [] ∧ pat.isPrefixOf (c :: rest) then
      pyRemoveAll pat ((c :: rest).drop pat.length)
    else
      c :: pyRemoveAll pat rest
termination_by s.length
decreasing_by
  · simp only [List.length_drop, List.length_cons]
    have hp : 0 < pat.length := List.length_pos.mpr h.1
    omega
  · simp only [List.length_cons]
    omega

/-- Numeric value of a decimal digit character. -/
def digitVal (c : Char) : Nat := c.toNat - 48

/-- Value of a big-endian decimal digit string. -/
def digitsVal (s : List Char) : Nat := s.foldl (fun a c => 10 * a + digitVal c) 0

/-- A nonempty all-digit string parses to its value; anything else fails. -/
def pyDigits? (s : List Char) : Option Nat :=
  if s ≠ [] ∧ s.all Char.isDigit then some (digitsVal s) else none

/-- Python `int(str)` on the string shapes arising in this program: optional
surrounding spaces, an optional single sign, then a nonempty digit run.
(Underscore digit grouping and non-decimal bases are not modelled.) -/
def pyInt? (s : List Char) : Option Int :=
  let t := pyRstripSet [' '] (pyLstripSet [' '] s)
  if t.head? = some '+' then (pyDigits? t.tail).map (fun n => (n : Int))
  else if t.head? = some '-' then (pyDigits? t.tail).map (fun n => -(n : Int))
  else (pyDigits? t).map (fun n => (n : Int))

/-- `timestamp_from_filename` (process_video.py, lines 21-30): strip the
trailing `".jpg"` characters, delete the `"<video_filename>_"` occurrences,
strip leading zeros, parse the rest as an integer `n`, and return
`start_time + (n - 1) * interval * adjustment` seconds.  A parse failure
(Python `ValueError`) is `none`. -/
def timestamp_from_filename (video_filename filename : List Char)
    (start_time interval adjustment : ℚ) : Option ℚ :=
  match pyInt? (pyLstripSet ['0']
      (pyRemoveAll (video_filename ++ ['_']) (pyRstripSet jpgChars filename))) with
  | none => none
  | some n => some (start_time + ((n : ℚ) - 1) * interval * adjustment)

/-- `os.path.basename` for POSIX paths: everything after the last slash. -/
def pyBasename (s : List Char) : List Char :=
  (s.reverse.takeWhile (fun c => c != '/')).reverse

/-- `timestamps_from_filename` (process_video.py, lines 33-47): derive one
capture time per listed image, in order; the loop materialises the whole
list, and a single filename parse failure aborts the whole derivation with
the exception propagating (`none`). -/
def timestamps_from_filename (video_filename : List Char)
    (full_image_list : List (List Char)) (start_time interval adjustment : ℚ) :
    Option (List ℚ) :=
  match full_image_list with
  | [] => some []
  | image :: rest =>
    match timestamp_from_filename video_filename (pyBasename image)
        start_time interval adjustment with
    | none => none
    | some t =>
      match timestamps_from_filename video_filename rest start_time interval adjustment with
      | none => none
      | some ts => some (t :: ts)

theorem isPrefixOf_append (p r : List Char) : p.isPrefixOf (p ++ r) = true := by
  induction p with
  | nil => simp [List.isPrefixOf]
  | cons a as ih => simp [List.isPrefixOf, ih]

theorem mem_of_mem_isPrefixOf {pat l : List Char} (h : pat.isPrefixOf l = true)
    {c : Char} (hc : c ∈ pat) : c ∈ l := by
  induction pat generalizing l with
  | nil => simp at hc
  | cons a as ih =>
    cases l with
    | nil => simp [List.isPrefixOf] at h
    | cons b bs =>
      simp only [List.isPrefixOf, Bool.and_eq_true, beq_iff_eq] at h
      rcases List.mem_cons.mp hc with rfl | hc2
      · exact h.1 ▸ List.mem_cons_self _ _
      · exact List.mem_cons_of_mem _ (ih h.2 hc2)

theorem pyRemoveAll_nil (pat : List Char) : pyRemoveAll pat [] = [] := by
  simp [pyRemoveAll]

theorem pyRemoveAll_self_append (pat rest : List Char) (hp : pat ≠ []) :
    pyRemoveAll pat (pat ++ rest) = pyRemoveAll pat rest := by
  cases pat with
  | nil => exact absurd rfl hp
  | cons a as =>
    rw [List.cons_append, pyRemoveAll]
    rw [dif_pos ⟨hp, by rw [← List.cons_append]; exact isPrefixOf_append _ _⟩]
    rw [← List.cons_append, List.drop_left]

theorem pyRemoveAll_of_all_ne (pat l : List Char) (c : Char) (hc : c ∈ pat)
    (hl : ∀ x ∈ l, x ≠ c) : pyRemoveAll pat l = l := by
  induction l with
  | nil => exact pyRemoveAll_nil pat
  | cons x xs ih =>
    rw [pyRemoveAll]
    rw [dif_neg]
    · rw [ih (fun y hy => hl y (List.mem_cons_of_mem _ hy))]
    · rintro ⟨-, hpre⟩
      exact hl c (mem_of_mem_isPrefixOf hpre hc) rfl

theorem pyRstripSet_append_all (cs s t : List Char)
    (h : ∀ c ∈ t, cs.contains c = true) :
    pyRstripSet cs (s ++ t) = pyRstripSet cs s := by
  unfold pyRstripSet
  rw [List.reverse_append, List.dropWhile_append_of_pos]
  intro x hx
  exact h x (List.mem_reverse.mp hx)

theorem pyRstripSet_of_getLast_not_mem (cs l : List Char) (c : Char)
    (h : l.getLast? = some c) (hc : cs.contains c = false) :
    pyRstripSet cs l = l := by
  unfold pyRstripSet
  rw [← List.head?_reverse] at h
  cases hrev : l.reverse with
  | nil => rw [hrev] at h; simp at h
  | cons a as =>
    rw [hrev] at h
    simp only [List.head?_cons, Option.some.injEq] at h
    subst h
    rw [List.dropWhile_cons_of_neg (fun hx => Bool.false_ne_true (hc.symm.trans hx)),
      ← hrev, List.reverse_reverse]

theorem pyLstripSet_append_all (cs s t : List Char)
    (h : ∀ c ∈ s, cs.contains c = true) :
    pyLstripSet cs (s ++ t) = pyLstripSet cs t := by
  unfold pyLstripSet
  exact List.dropWhile_append_of_pos h

theorem pyLstripSet_of_head_not_mem (cs l : List Char) (c : Char)
    (h : l.head? = some c) (hc : cs.contains c = false) :
    pyLstripSet cs l = l := by
  cases l with
  | nil => simp at h
  | cons a as =>
    simp only [List.head?_cons, Option.some.injEq] at h
    subst h
    exact List.dropWhile_cons_of_neg (fun hx => Bool.false_ne_true (hc.symm.trans hx))

theorem digit_not_in_jpgChars {c : Char} (h : c.isDigit = true) :
    jpgChars.contains c = false := by
  by_contra hx
  have hmem : c ∈ jpgChars :=
    List.mem_of_elem_eq_true (Bool.of_not_eq_false hx)
  simp only [jpgChars, List.mem_cons, List.not_mem_nil, or_false] at hmem
  rcases hmem with rfl | rfl | rfl | rfl <;> simp [Char.isDigit] at h

theorem digit_ne_of_not_digit {c d : Char} (h : c.isDigit = true)
    (hd : d.isDigit = false) : c ≠ d := by
  intro he
  rw [he] at h
  rw [h] at hd
  exact Bool.false_ne_true hd.symm

theorem contains_singleton_eq_false_of_ne {c d : Char} (h : c ≠ d) :
    [d].contains c = false := by
  by_contra hx
  have hmem : c ∈ [d] := List.mem_of_elem_eq_true (Bool.of_not_eq_false hx)
  simp only [List.mem_cons, List.not_mem_nil, or_false] at hmem
  exact h hmem

/-- A frame filename `<base>_<zeros><ds>.jpg` (with `ds` a digit string with
no leading zero) runs through the stripping pipeline of
`timestamp_from_filename` to the integer value of `ds`. -/
theorem frame_index_parse (base pad ds : List Char)
    (hpad : ∀ c ∈ pad, c = '0') (hds : ds ≠ [])
    (hall : ds.all Char.isDigit = true) (hhead : ds.head? ≠ some '0') :
    pyInt? (pyLstripSet ['0'] (pyRemoveAll (base ++ ['_'])
        (pyRstripSet jpgChars (base ++ ['_'] ++ pad ++ ds ++ jpgChars))))
      = some ((digitsVal ds : Int)) := by
  have hall' : ∀ x ∈ ds, x.isDigit = true := fun x hx =>
    (List.all_eq_true.mp hall) x hx
  obtain ⟨cl, hcl⟩ : ∃ c, ds.getLast? = some c := by
    cases hg : ds.getLast? with
    | none => exact absurd (List.getLast?_eq_none_iff.mp hg) hds
    | some c => exact ⟨c, rfl⟩
  have hclmem : cl ∈ ds := List.mem_of_mem_getLast? hcl
  have hcld : cl.isDigit = true := hall' cl hclmem
  obtain ⟨d, dtl, rfl⟩ : ∃ d dtl, ds = d :: dtl := by
    cases ds with
    | nil => exact absurd rfl hds
    | cons d dtl => exact ⟨d, dtl, rfl⟩
  have hdd : d.isDigit = true := hall' d (List.mem_cons_self _ _)
  have hd0 : d ≠ '0' := fun he => hhead (by rw [he]; rfl)
  have h1 : pyRstripSet jpgChars (base ++ ['_'] ++ pad ++ (d :: dtl) ++ jpgChars)
      = base ++ ['_'] ++ pad ++ (d :: dtl) := by
    rw [pyRstripSet_append_all _ _ _ (by decide)]
    refine pyRstripSet_of_getLast_not_mem _ _ cl ?_ (digit_not_in_jpgChars hcld)
    rw [List.getLast?_append_of_ne_nil _ (by simp)]
    exact hcl
  rw [h1]
  have h2 : pyRemoveAll (base ++ ['_']) (base ++ ['_'] ++ pad ++ (d :: dtl))
      = pad ++ (d :: dtl) := by
    rw [List.append_assoc (base ++ ['_']) pad (d :: dtl),
      pyRemoveAll_self_append _ _ (by simp)]
    refine pyRemoveAll_of_all_ne _ _ '_' (by simp) ?_
    intro x hx
    rcases List.mem_append.mp hx with hx | hx
    · rw [hpad x hx]; decide
    · exact digit_ne_of_not_digit (hall' x hx) (by decide)
  rw [h2]
  have h3 : pyLstripSet ['0'] (pad ++ (d :: dtl)) = d :: dtl := by
    rw [pyLstripSet_append_all _ _ _ (fun c hc => by rw [hpad c hc]; decide)]
    exact pyLstripSet_of_head_not_mem ['0'] (d :: dtl) d rfl
      (contains_singleton_eq_false_of_ne hd0)
  rw [h3]
  have hdsp : d ≠ ' ' := digit_ne_of_not_digit hdd (by decide)
  have hcsp : cl ≠ ' ' := digit_ne_of_not_digit hcld (by decide)
  unfold pyInt?
  rw [pyLstripSet_of_head_not_mem [' '] (d :: dtl) d rfl
      (contains_singleton_eq_false_of_ne hdsp),
    pyRstripSet_of_getLast_not_mem _ _ cl hcl (contains_singleton_eq_false_of_ne hcsp)]
  have hdp : d ≠ '+' := digit_ne_of_not_digit hdd (by decide)
  have hdm : d ≠ '-' := digit_ne_of_not_digit hdd (by decide)
  rw [if_neg (by simp [hdp]), if_neg (by simp [hdm])]
  unfold pyDigits?
  rw [if_pos ⟨hds, hall⟩]
  rfl

/-- Evaluation of `timestamp_from_filename` on a well-formed frame filename. -/
theorem timestamp_from_filename_eval (base pad ds : List Char)
    (start interval adjustment : ℚ)
    (hpad : ∀ c ∈ pad, c = '0') (hds : ds ≠ [])
    (hall : ds.all Char.isDigit = true) (hhead : ds.head? ≠ some '0') :
    timestamp_from_filename base (base ++ ['_'] ++ pad ++ ds ++ jpgChars)
        start interval adjustment
      = some (start + ((digitsVal ds : ℚ) - 1) * interval * adjustment) := by
  unfold timestamp_from_filename
  rw [frame_index_parse base pad ds hpad hds hall hhead]
  push_cast
  rfl

/-- Days since 1970-01-01 of a proleptic-Gregorian civil date (the standard
days-from-civil computation); used to model Python `datetime` values as
absolute seconds. -/
def daysFromCivil (y m d : Int) : Int :=
  let y2 := if m ≤ 2 then y - 1 else y
  let era := (if 0 ≤ y2 then y2 else y2 - 399) / 400
  let yoe := y2 - era * 400
  let mp := (m + 9) % 12
  let doy := (153 * mp + 2) / 5 + d - 1
  let doe := yoe * 365 + yoe / 4 - yoe / 100 + doy
  era * 146097 + doe - 719468

/-- Seconds since the UNIX epoch of a civil UTC datetime. -/
def epochSeconds (y m d h mi s : Int) : Int :=
  daysFromCivil y m d * 86400 + h * 3600 + mi * 60 + s

/-- A Python `datetime.datetime` (UTC) as exact rational seconds since the
UNIX epoch. -/
def mkDT (y m d h mi s : Int) : ℚ := (epochSeconds y m d h mi s : ℚ)

/-- The filename shape produced by the sampling tool: a video base name, an
underscore, a zero-padded 1-based index, and the `.jpg` suffix. -/
def frameName (base pad ds : List Char) : List Char :=
  base ++ ['_'] ++ pad ++ ds ++ jpgChars

theorem takeWhile_all (p : Char → Bool) (l : List Char) (h : ∀ x ∈ l, p x = true) :
    l.takeWhile p = l := by
  induction l with
  | nil => rfl
  | cons a as ih =>
    rw [List.takeWhile_cons_of_pos (h a (List.mem_cons_self _ _)),
      ih (fun x hx => h x (List.mem_cons_of_mem _ hx))]

theorem pyBasename_eq_self (l : List Char) (h : ∀ c ∈ l, c ≠ '/') :
    pyBasename l = l := by
  unfold pyBasename
  rw [takeWhile_all _ _ (by
    intro x hx
    have := h x (List.mem_reverse.mp hx)
    simp [this]), List.reverse_reverse]

theorem frameName_no_slash (base pad ds : List Char)
    (hbase : ∀ c ∈ base, c ≠ '/') (hpad : ∀ c ∈ pad, c = '0')
    (hall : ds.all Char.isDigit = true) :
    ∀ c ∈ frameName base pad ds, c ≠ '/' := by
  intro c hc
  unfold frameName at hc
  simp only [List.append_assoc, List.mem_append, List.mem_cons, List.not_mem_nil,
    or_false] at hc
  rcases hc with hc | hc | hc | hc | hc
  · exact hbase c hc
  · rw [hc]; decide
  · rw [hpad c hc]; decide
  · exact digit_ne_of_not_digit (List.all_eq_true.mp hall c hc) (by decide)
  · simp only [jpgChars, List.mem_cons, List.not_mem_nil, or_false] at hc
    rcases hc with rfl | rfl | rfl | rfl <;> decide

/-- C1: For every frame filename of the form
`<videoBaseName>_<zeroPaddedIndex>.jpg` with 1-based integer index `n`, and
for every `startTime`, `intervalSeconds` and `durationRatio`, the timestamp
derived by `timestamp_from_filename` equals
`startTime + (n - 1) * intervalSeconds * durationRatio` seconds. -/
theorem C1_frame_timestamp_formula (base pad ds : List Char) (n : ℕ)
    (start interval ratio : ℚ)
    (hpad : ∀ c ∈ pad, c = '0') (hds : ds ≠ [])
    (hall : ds.all Char.isDigit = true) (hhead : ds.head? ≠ some '0')
    (hval : digitsVal ds = n) :
    timestamp_from_filename base (base ++ ['_'] ++ pad ++ ds ++ jpgChars)
        start interval ratio
      = some (start + ((n : ℚ) - 1) * interval * ratio) := by
  rw [timestamp_from_filename_eval base pad ds start interval ratio hpad hds hall hhead,
    hval]

/-- C1 witness: with `interval = 2.0` and `ratio = 1.0` and start time
2020-01-01T00:00:00Z, frame index 1 maps to the start time and index 4 maps
to start time + 6 seconds. -/
theorem C1_frame_timestamp_formula_witness :
    timestamp_from_filename (chars ("video")) (chars ("video_000001.jpg"))
        (mkDT 2020 1 1 0 0 0) 2 1 = some (mkDT 2020 1 1 0 0 0) ∧
    timestamp_from_filename (chars ("video")) (chars ("video_000004.jpg"))
        (mkDT 2020 1 1 0 0 0) 2 1 = some (mkDT 2020 1 1 0 0 0 + 6) := by
  constructor
  · have h := C1_frame_timestamp_formula (chars ("video")) (chars ("00000")) ['1'] 1
      (mkDT 2020 1 1 0 0 0) 2 1 (by decide) (by decide) (by decide) (by decide)
      (by decide)
    have he : chars ("video_000001.jpg")
        = chars ("video") ++ ['_'] ++ chars ("00000") ++ ['1'] ++ jpgChars := by decide
    rw [he, h]
    norm_num
  · have h := C1_frame_timestamp_formula (chars ("video")) (chars ("00000")) ['4'] 4
      (mkDT 2020 1 1 0 0 0) 2 1 (by decide) (by decide) (by decide) (by decide)
      (by decide)
    have he : chars ("video_000004.jpg")
        = chars ("video") ++ ['_'] ++ chars ("00000") ++ ['4'] ++ jpgChars := by decide
    rw [he, h]
    norm_num

/-- Variant of `timestamp_from_filename_eval` phrased through `frameName`. -/
theorem timestamp_from_filename_eval_frameName (base pad ds : List Char)
    (start interval adjustment : ℚ)
    (hpad : ∀ c ∈ pad, c = '0') (hds : ds ≠ [])
    (hall : ds.all Char.isDigit = true) (hhead : ds.head? ≠ some '0') :
    timestamp_from_filename base (frameName base pad ds) start interval adjustment
      = some (start + ((digitsVal ds : ℚ) - 1) * interval * adjustment) := by
  unfold frameName
  exact timestamp_from_filename_eval base pad ds start interval adjustment hpad hds hall hhead

/-- Evaluation of `timestamps_from_filename` on a list of well-formed frame
filenames: it succeeds and yields exactly the C1 formula per item, in input
order. -/
theorem timestamps_from_filename_eval (base : List Char)
    (items : List (List Char × List Char)) (start interval ratio : ℚ)
    (hbase : ∀ c ∈ base, c ≠ '/')
    (hvalid : ∀ p ∈ items, (∀ c ∈ p.1, c = '0') ∧ p.2 ≠ [] ∧
      p.2.all Char.isDigit = true ∧ p.2.head? ≠ some '0') :
    timestamps_from_filename base (items.map (fun p => frameName base p.1 p.2))
        start interval ratio
      = some (items.map
          (fun p => start + ((digitsVal p.2 : ℚ) - 1) * interval * ratio)) := by
  induction items with
  | nil => rfl
  | cons p rest ih =>
    obtain ⟨h1, h2, h3, h4⟩ := hvalid p (List.mem_cons_self _ _)
    rw [List.map_cons, timestamps_from_filename,
      pyBasename_eq_self _ (frameName_no_slash base p.1 p.2 hbase h1 h3),
      timestamp_from_filename_eval_frameName base p.1 p.2 start interval ratio h1 h2 h3 h4,
      ih (fun q hq => hvalid q (List.mem_cons_of_mem _ hq))]
    rfl

/-- C2: For every list of valid sequential frame filenames given in
increasing index order, whenever `intervalSeconds * durationRatio > 0`, the
timestamps produced by `timestamps_from_filename` are strictly increasing. -/
theorem C2_timestamps_increasing (base : List Char)
    (items : List (List Char × List Char)) (start interval ratio : ℚ)
    (hbase : ∀ c ∈ base, c ≠ '/')
    (hvalid : ∀ p ∈ items, (∀ c ∈ p.1, c = '0') ∧ p.2 ≠ [] ∧
      p.2.all Char.isDigit = true ∧ p.2.head? ≠ some '0')
    (hpos : 0 < interval * ratio)
    (hmono : List.Chain' (fun p q => digitsVal p.2 < digitsVal q.2) items) :
    ∃ ts, timestamps_from_filename base
        (items.map (fun p => frameName base p.1 p.2)) start interval ratio
        = some ts ∧ List.Chain' (· < ·) ts := by
  refine ⟨_, timestamps_from_filename_eval base items start interval ratio hbase hvalid, ?_⟩
  rw [List.chain'_map]
  refine hmono.imp ?_
  intro a b hab
  have hq : (digitsVal a.2 : ℚ) < (digitsVal b.2 : ℚ) := by exact_mod_cast hab
  nlinarith [mul_pos (sub_pos.mpr hq) hpos]

/-- C2 witness: three concrete in-order frame filenames with interval 2 and
ratio 1 derive successfully to a strictly increasing timestamp list. -/
theorem C2_timestamps_increasing_witness :
    ∃ ts, timestamps_from_filename (chars ("video"))
        [chars ("video_000001.jpg"), chars ("video_000002.jpg"),
          chars ("video_000004.jpg")] (mkDT 2020 1 1 0 0 0) 2 1
        = some ts ∧ List.Chain' (· < ·) ts := by
  have h := C2_timestamps_increasing (chars ("video"))
    [(chars ("00000"), ['1']), (chars ("00000"), ['2']), (chars ("00000"), ['4'])]
    (mkDT 2020 1 1 0 0 0) 2 1 (by decide) (by decide) (by norm_num)
    (by simp only [List.chain'_cons, List.chain'_singleton, and_true]; decide)
  have he : ([(chars ("00000"), ['1']), (chars ("00000"), ['2']),
      (chars ("00000"), ['4'])].map
        (fun p => frameName (chars ("video")) p.1 p.2))
      = [chars ("video_000001.jpg"), chars ("video_000002.jpg"),
          chars ("video_000004.jpg")] := by decide
  rw [he] at h
  exact h

/-- Read exactly `k` digit characters as a number, returning the rest. -/
def readFixedNat (k : Nat) (s : List Char) : Option (Nat × List Char) :=
  if (s.take k).length = k ∧ (s.take k).all Char.isDigit then
    some (digitsVal (s.take k), s.drop k)
  else none

/-- Read one or two digit characters, maximal munch.  This models the one-
or-two-digit numeric fields of Python `strptime`; in the two formats used by
the source every such field is followed by a non-digit literal or the end of
the string, where maximal munch and regex backtracking agree. -/
def readFlexNat (s : List Char) : Option (Nat × List Char) :=
  match s with
  | [] => none
  | [a] => if a.isDigit then some (digitVal a, []) else none
  | a :: b :: rest =>
    if a.isDigit then
      if b.isDigit then some (10 * digitVal a + digitVal b, rest)
      else some (digitVal a, b :: rest)
    else none

/-- Consume one expected literal character. -/
def readLit (c : Char) (s : List Char) : Option (List Char) :=
  match s with
  | [] => none
  | x :: rest => if x = c then some rest else none

/-- Consume a sequence of expected literal characters. -/
def readLitSeq (pat s : List Char) : Option (List Char) :=
  match pat with
  | [] => some s
  | c :: ps => (readLit c s).bind (readLitSeq ps)

/-- Gregorian leap-year rule, as in Python's `calendar`/`datetime`. -/
def isLeapYear (y : Int) : Bool :=
  decide (y % 4 = 0 ∧ (y % 100 ≠ 0 ∨ y % 400 = 0))

/-- Length of a month, as validated by the `datetime` constructor. -/
def daysInMonth (y m : Int) : Int :=
  if m = 2 then (if isLeapYear y then 29 else 28)
  else if m = 4 ∨ m = 6 ∨ m = 9 ∨ m = 11 then 30
  else 31

/-- Range validation performed by the Python `datetime` constructor;
out-of-range fields (month 13, February 30, hour 24, ...) raise ValueError,
which the callers treat as a parse failure. -/
def validCivil (y m d h mi s : Int) : Bool :=
  decide (1 ≤ y ∧ y ≤ 9999 ∧ 1 ≤ m ∧ m ≤ 12 ∧ 1 ≤ d ∧ d ≤ daysInMonth y m ∧
    0 ≤ h ∧ h ≤ 23 ∧ 0 ≤ mi ∧ mi ≤ 59 ∧ 0 ≤ s ∧ s ≤ 59)

/-- `datetime.strptime(s, TIME_FORMAT)` with `TIME_FORMAT = "%Y-%m-%d %H:%M:%S"`
(process_video.py line 17): a full-string match, yielding the datetime. -/
def strptime_TIME_FORMAT (s : List Char) : Option ℚ := do
  let (y, r1) ← readFixedNat 4 s
  let r2 ← readLit '-' r1
  let (mo, r3) ← readFlexNat r2
  let r4 ← readLit '-' r3
  let (d, r5) ← readFlexNat r4
  let r6 ← readLit ' ' r5
  let (h, r7) ← readFlexNat r6
  let r8 ← readLit ':' r7
  let (mi, r9) ← readFlexNat r8
  let r10 ← readLit ':' r9
  let (sec, r11) ← readFlexNat r10
  if r11 = [] ∧ validCivil y mo d h mi sec then
    some (mkDT y mo d h mi sec)
  else none

/-- `datetime.strptime(s, TIME_FORMAT_2)` with
`TIME_FORMAT_2 = "%Y-%m-%dT%H:%M:%S.000000Z"` (process_video.py line 18). -/
def strptime_TIME_FORMAT_2 (s : List Char) : Option ℚ := do
  let (y, r1) ← readFixedNat 4 s
  let r2 ← readLit '-' r1
  let (mo, r3) ← readFlexNat r2
  let r4 ← readLit '-' r3
  let (d, r5) ← readFlexNat r4
  let r6 ← readLit 'T' r5
  let (h, r7) ← readFlexNat r6
  let r8 ← readLit ':' r7
  let (mi, r9) ← readFlexNat r8
  let r10 ← readLit ':' r9
  let (sec, r11) ← readFlexNat r10
  let r12 ← readLitSeq (chars (".000000Z")) r11
  if r12 = [] ∧ validCivil y mo d h mi sec then
    some (mkDT y mo d h mi sec)
  else none

/-- Unsigned part of `pyFloat?`: an integral digit run, an optional dot, and
a fractional digit run, with at least one digit overall. -/
def pyFloatCore (sgn : ℚ) (u : List Char) : Option ℚ :=
  match u.dropWhile Char.isDigit, u.takeWhile Char.isDigit with
  | [], ip => if ip ≠ [] then some (sgn * (digitsVal ip : ℚ)) else none
  | c :: fracPart, ip =>
    if c = '.' ∧ fracPart.all Char.isDigit ∧ (ip ≠ [] ∨ fracPart ≠ []) then
      some (sgn * ((digitsVal ip : ℚ)
        + (digitsVal fracPart : ℚ) / (10 : ℚ) ^ fracPart.length))
    else none

/-- Python `float(str)` restricted to the decimal shapes relevant here:
optional surrounding spaces, optional sign, digits with an optional
fractional part (at least one digit overall).  `inf`/`nan`/exponents are not
modelled.  Values are exact rationals. -/
def pyFloat? (s : List Char) : Option ℚ :=
  if (pyRstripSet [' '] (pyLstripSet [' '] s)).head? = some '+' then
    pyFloatCore 1 (pyRstripSet [' '] (pyLstripSet [' '] s)).tail
  else if (pyRstripSet [' '] (pyLstripSet [' '] s)).head? = some '-' then
    pyFloatCore (-1) (pyRstripSet [' '] (pyLstripSet [' '] s)).tail
  else
    pyFloatCore 1 (pyRstripSet [' '] (pyLstripSet [' '] s))

/-- The two attributes consumed from one ffprobe video stream (the external
metadata probe): the raw duration string and the raw creation-time string,
each possibly absent (an absent attribute raises, which the callers catch). -/
structure ProbeStream where
  duration : Option (List Char)
  creation_time : Option (List Char)

/-- `get_video_duration` (process_video.py, lines 169-182): `None` when the
probe reports no video stream; otherwise `float(duration)`, with
`TypeError`/`ValueError` caught and turned into `None`. -/
def get_video_duration (video : List ProbeStream) : Option ℚ :=
  match video with
  | [] => none
  | st :: _ =>
    match st.duration with
    | none => none
    | some ds => pyFloat? ds

/-- `get_video_end_time` (process_video.py, lines 221-234): requires the file
to exist; fetches `video[0].creation_time` (an empty stream list or missing
attribute raises, caught by the outer handler → `None`), parses with
`TIME_FORMAT` and, only on failure, with `TIME_FORMAT_2`; failure of the
second parse is caught by the outer handler → `None`. -/
def get_video_end_time (isfile : Bool) (video : List ProbeStream) : Option ℚ :=
  if !isfile then none
  else
    match video with
    | [] => none
    | st :: _ =>
      match st.creation_time with
      | none => none
      | some ts =>
        match strptime_TIME_FORMAT ts with
        | some t => some t
        | none => strptime_TIME_FORMAT_2 ts

/-- `get_video_start_time` (process_video.py, lines 237-248): end time minus
duration when both are available, `None` otherwise. -/
def get_video_start_time (isfile : Bool) (video : List ProbeStream) : Option ℚ :=
  if !isfile then none
  else
    match get_video_end_time isfile video, get_video_duration video with
    | some e, some d => some (e - d)
    | _, _ => none

/-- Evaluation of `pyFloat?` on `<digits>.<digits>` strings such as "60.0". -/
theorem pyFloat?_digits_dot_digits (ip fp : List Char)
    (hip : ip ≠ []) (hfp : fp ≠ [])
    (hid : ip.all Char.isDigit = true) (hfd : fp.all Char.isDigit = true) :
    pyFloat? (ip ++ '.' :: fp)
      = some ((digitsVal ip : ℚ) + (digitsVal fp : ℚ) / (10 : ℚ) ^ fp.length) := by
  have hipd : ∀ x ∈ ip, x.isDigit = true := fun x hx => List.all_eq_true.mp hid x hx
  have hfpd : ∀ x ∈ fp, x.isDigit = true := fun x hx => List.all_eq_true.mp hfd x hx
  obtain ⟨d, dtl, rfl⟩ : ∃ d dtl, ip = d :: dtl := by
    cases ip with
    | nil => exact absurd rfl hip
    | cons d dtl => exact ⟨d, dtl, rfl⟩
  have hdd : d.isDigit = true := hipd d (List.mem_cons_self _ _)
  obtain ⟨cl, hcl⟩ : ∃ c, fp.getLast? = some c := by
    cases hg : fp.getLast? with
    | none => exact absurd (List.getLast?_eq_none_iff.mp hg) hfp
    | some c => exact ⟨c, rfl⟩
  have hcld : cl.isDigit = true := hfpd cl (List.mem_of_mem_getLast? hcl)
  have hlast : ((d :: dtl) ++ '.' :: fp).getLast? = some cl := by
    have hsplit : (d :: dtl) ++ '.' :: fp = ((d :: dtl) ++ ['.']) ++ fp := by
      simp
    rw [hsplit, List.getLast?_append_of_ne_nil _ hfp]
    exact hcl
  have htrim : pyRstripSet [' '] (pyLstripSet [' '] ((d :: dtl) ++ '.' :: fp))
      = (d :: dtl) ++ '.' :: fp := by
    rw [pyLstripSet_of_head_not_mem [' '] ((d :: dtl) ++ '.' :: fp) d rfl
      (contains_singleton_eq_false_of_ne (digit_ne_of_not_digit hdd (by decide)))]
    exact pyRstripSet_of_getLast_not_mem _ _ cl hlast
      (contains_singleton_eq_false_of_ne (digit_ne_of_not_digit hcld (by decide)))
  have hnp : d ≠ '+' := digit_ne_of_not_digit hdd (by decide)
  have hnm : d ≠ '-' := digit_ne_of_not_digit hdd (by decide)
  unfold pyFloat?
  rw [htrim, if_neg (by simp [hnp]), if_neg (by simp [hnm])]
  have htake : List.takeWhile Char.isDigit ((d :: dtl) ++ '.' :: fp) = d :: dtl := by
    rw [List.takeWhile_append_of_pos hipd, List.takeWhile_cons_of_neg (by decide),
      List.append_nil]
  have hdrop : List.dropWhile Char.isDigit ((d :: dtl) ++ '.' :: fp) = '.' :: fp := by
    rw [List.dropWhile_append_of_pos hipd, List.dropWhile_cons_of_neg (by decide)]
  unfold pyFloatCore
  rw [htake, hdrop]
  show (if ('.' : Char) = '.' ∧ fp.all Char.isDigit = true ∧ (d :: dtl ≠ [] ∨ fp ≠ []) then
      some ((1 : ℚ) * ((digitsVal (d :: dtl) : ℚ)
        + (digitsVal fp : ℚ) / (10 : ℚ) ^ fp.length))
    else none) = _
  rw [if_pos ⟨rfl, hfd, Or.inl hip⟩, one_mul]

/-- Evaluation of `get_video_start_time` when both probe fields parse. -/
theorem get_video_start_time_eval
    (rest : List ProbeStream) (cts dus : List Char) (e du : ℚ)
    (hparse : strptime_TIME_FORMAT cts = some e ∨
      (strptime_TIME_FORMAT cts = none ∧ strptime_TIME_FORMAT_2 cts = some e))
    (hdur : pyFloat? dus = some du) :
    get_video_start_time true ((⟨some dus, some cts⟩ : ProbeStream) :: rest)
      = some (e - du) := by
  have hend : get_video_end_time true ((⟨some dus, some cts⟩ : ProbeStream) :: rest)
      = some e := by
    rcases hparse with h | ⟨h1, h2⟩
    · simp [get_video_end_time, h]
    · simp [get_video_end_time, h1, h2]
  simp [get_video_start_time, get_video_duration, hend, hdur]

/-- C3: whenever the probe yields a creation-time string parseable by one of
the two accepted formats and a parseable floating-point duration,
`get_video_start_time` returns creation time minus duration seconds. -/
theorem C3_start_time_is_end_minus_duration
    (rest : List ProbeStream) (cts dus : List Char) (e du : ℚ)
    (hparse : strptime_TIME_FORMAT cts = some e ∨
      (strptime_TIME_FORMAT cts = none ∧ strptime_TIME_FORMAT_2 cts = some e))
    (hdur : pyFloat? dus = some du) :
    get_video_start_time true ((⟨some dus, some cts⟩ : ProbeStream) :: rest)
      = some (e - du) :=
  get_video_start_time_eval rest cts dus e du hparse hdur

/-- The duration string "60.0" parses to the rational 60. -/
theorem pyFloat?_sixty : pyFloat? (chars ("60.0")) = some 60 := by
  have h := pyFloat?_digits_dot_digits (chars ("60")) ['0']
    (by decide) (by decide) (by decide) (by decide)
  have he : chars ("60")  ++ '.' :: ['0'] = chars ("60.0") := by decide
  rw [he] at h
  rw [h]
  have e1 : digitsVal (chars ("60")) = 60 := by decide
  have e2 : digitsVal ['0'] = 0 := by decide
  rw [e1, e2]
  norm_num

/-- 2020-01-01T00:10:00Z minus 60 seconds is 2020-01-01T00:09:00Z. -/
theorem mkDT_sample_sub : mkDT 2020 1 1 0 10 0 - 60 = mkDT 2020 1 1 0 9 0 := by
  have h1 : epochSeconds 2020 1 1 0 10 0 = 1577837400 := by decide
  have h2 : epochSeconds 2020 1 1 0 9 0 = 1577837340 := by decide
  rw [mkDT, mkDT, h1, h2]
  norm_num

/-- C3 witness: probe creation time `2020-01-01 00:10:00` with duration
`60.0` yields start time 2020-01-01T00:09:00Z. -/
theorem C3_start_time_is_end_minus_duration_witness :
    get_video_start_time true
        [⟨some (chars ("60.0")), some (chars ("2020-01-01 00:10:00"))⟩]
      = some (mkDT 2020 1 1 0 9 0) := by
  have h := C3_start_time_is_end_minus_duration []
    (chars ("2020-01-01 00:10:00")) (chars ("60.0")) (mkDT 2020 1 1 0 10 0) 60
    (Or.inl (by decide)) pyFloat?_sixty
  rw [h, mkDT_sample_sub]

/-- C4: `get_video_end_time` parses the probe creation-time string first with
`TIME_FORMAT` (`YYYY-MM-DD HH:MM:SS`); only if that fails it parses with
`TIME_FORMAT_2` (`YYYY-MM-DDTHH:MM:SS.000000Z`), returning the first
successful parse; with no creation-time string (or both parses failing, or a
missing file) it yields `None`. -/
theorem C4_end_time_parse_order :
    (∀ (dus : Option (List Char)) (rest : List ProbeStream) (s : List Char) (t : ℚ),
      strptime_TIME_FORMAT s = some t →
      get_video_end_time true (⟨dus, some s⟩ :: rest) = some t) ∧
    (∀ (dus : Option (List Char)) (rest : List ProbeStream) (s : List Char),
      strptime_TIME_FORMAT s = none →
      get_video_end_time true (⟨dus, some s⟩ :: rest) = strptime_TIME_FORMAT_2 s) ∧
    (∀ (isfile : Bool) (video : List ProbeStream),
      isfile = false ∨ video.head?.bind ProbeStream.creation_time = none →
      get_video_end_time isfile video = none) := by
  refine ⟨?_, ?_, ?_⟩
  · intro dus rest s t h
    unfold get_video_end_time
    simp [h]
  · intro dus rest s h
    unfold get_video_end_time
    simp [h]
  · intro isfile video h
    rcases h with rfl | h
    · rfl
    · cases video with
      | nil => unfold get_video_end_time; cases isfile <;> rfl
      | cons st vrest =>
        simp only [List.head?_cons, Option.some_bind] at h
        cases isfile
        · rfl
        · simp [get_video_end_time, h]

/-- C4 witness: both formats at concrete strings, an unparseable string, and
an absent creation time. -/
theorem C4_end_time_parse_order_witness :
    get_video_end_time true [⟨none, some (chars ("2020-01-01 00:10:00"))⟩]
        = some (mkDT 2020 1 1 0 10 0) ∧
    get_video_end_time true [⟨none, some (chars ("2020-01-01T00:10:00.000000Z"))⟩]
        = some (mkDT 2020 1 1 0 10 0) ∧
    get_video_end_time true [⟨none, some (chars ("not-a-time"))⟩] = none ∧
    get_video_end_time true [⟨none, none⟩] = none := by
  obtain ⟨h1, h2, h3⟩ := C4_end_time_parse_order
  refine ⟨h1 none [] _ _ (by decide), ?_, ?_, h3 true _ (Or.inr rfl)⟩
  · rw [h2 none [] _ (by decide)]
    decide
  · rw [h2 none [] _ (by decide)]
    decide

/-- Big-endian 32-bit read at `pos` (`struct.unpack(">I", ...)`); callers
establish `pos + 4 ≤ s.length` before relying on the value. -/
def be32 (s : List Nat) (pos : Nat) : Nat :=
  s.getD pos 0 * 16777216 + s.getD (pos + 1) 0 * 65536
    + s.getD (pos + 2) 0 * 256 + s.getD (pos + 3) 0

/-- Four raw bytes at `pos` (a box type tag). -/
def read4 (s : List Nat) (pos : Nat) : List Nat :=
  (s.drop pos).take 4

/-- The bytes of the ASCII tag "moov". -/
def moovTag : List Nat := [109, 111, 111, 118]

/-- Modelled from the spec: the box framing behaviour of the external pymp4
`Box.parse_stream` used by the `while fd.tell() < eof` loop of
`get_video_start_time_blackvue` (process_video.py, lines 251-279), as
described in spec §4.1: each top-level box is a 4-byte big-endian size and a
4-byte type tag followed by `size - 8` payload bytes which `parse_stream`
consumes; a read past the end of the stream, or a size too small to cover
its own header, is a parse error.  The loop itself is from the source: it
returns the offset of the first `moov` box, errors if a parse fails, and
falls off the loop (returning no box) when the stream position reaches the
end cleanly. -/
def scan_moov (s : List Nat) (pos : Nat) : Except Unit (Option Nat) :=
  if hlt : pos < s.length then
    if s.length < pos + 8 then Except.error ()
    else if be32 s pos < 8 then Except.error ()
    else if s.length < pos + be32 s pos then Except.error ()
    else if read4 s (pos + 4) = moovTag then Except.ok (some pos)
    else scan_moov s (pos + be32 s pos)
  else Except.ok none
termination_by s.length - pos
decreasing_by
  rename_i h8 hsmall hbound
  have h1 : 8 ≤ be32 s pos := Nat.le_of_not_lt h8
  omega

/-- The 1904-01-01T00:00:00 epoch of MP4 timestamps, as a datetime. -/
def epoch1904 : ℚ := mkDT 1904 1 1 0 0 0

/-- `get_video_start_time_blackvue` (process_video.py, lines 251-279): scan
top-level boxes for `moov`; at its offset + 8 read an inner header (4-byte
size, 4-byte tag, 4 skipped bytes, then creation time, modification time,
time scale and duration as big-endian u32); return
`datetime(1904,1,1) + timedelta(milliseconds = creation_time * 1000 - duration)`.
Reads past the end of the stream raise (`Except.error`); reaching the end of
the stream without a `moov` box falls off the loop and returns `None`. -/
def get_video_start_time_blackvue (s : List Nat) : Except Unit (Option ℚ) :=
  match scan_moov s 0 with
  | Except.error e => Except.error e
  | Except.ok none => Except.ok none
  | Except.ok (some p) =>
    if s.length < p + 36 then Except.error ()
    else
      Except.ok (some (epoch1904
        + (((be32 s (p + 20) : Int) * 1000 - (be32 s (p + 32) : Int) : Int) : ℚ) / 1000))

/-- The box scan reaches end-of-stream cleanly (every top-level box before
`pos` is well formed, none is `moov`, and the position lands exactly past the
last byte). -/
inductive CleanScan (s : List Nat) : Nat → Prop where
  | eof (pos : Nat) : s.length ≤ pos → CleanScan s pos
  | box (pos : Nat) : pos + 8 ≤ s.length → 8 ≤ be32 s pos →
      pos + be32 s pos ≤ s.length → read4 s (pos + 4) ≠ moovTag →
      CleanScan s (pos + be32 s pos) → CleanScan s pos

/-- The box scan hits a read that exceeds stream bounds (or a box size too
small for its own header) before finding a `moov` box. -/
inductive ScanOverrun (s : List Nat) : Nat → Prop where
  | header (pos : Nat) : pos < s.length → s.length < pos + 8 → ScanOverrun s pos
  | small (pos : Nat) : pos + 8 ≤ s.length → be32 s pos < 8 → ScanOverrun s pos
  | payload (pos : Nat) : pos + 8 ≤ s.length → 8 ≤ be32 s pos →
      s.length < pos + be32 s pos → ScanOverrun s pos
  | next (pos : Nat) : pos + 8 ≤ s.length → 8 ≤ be32 s pos →
      pos + be32 s pos ≤ s.length → read4 s (pos + 4) ≠ moovTag →
      ScanOverrun s (pos + be32 s pos) → ScanOverrun s pos

theorem scan_moov_of_clean (s : List Nat) (pos : Nat) (h : CleanScan s pos) :
    scan_moov s pos = Except.ok none := by
  induction h with
  | eof pos hpos =>
    unfold scan_moov
    rw [dif_neg (by omega)]
  | box pos h8 hsz hbound hty hrec ih =>
    unfold scan_moov
    rw [dif_pos (by omega), if_neg (by omega), if_neg (by omega), if_neg (by omega),
      if_neg hty]
    exact ih

theorem scan_moov_of_overrun (s : List Nat) (pos : Nat) (h : ScanOverrun s pos) :
    scan_moov s pos = Except.error () := by
  induction h with
  | header pos hlt hshort =>
    unfold scan_moov
    rw [dif_pos hlt, if_pos hshort]
  | small pos h8 hsz =>
    unfold scan_moov
    rw [dif_pos (by omega), if_neg (by omega), if_pos hsz]
  | payload pos h8 hsz hover =>
    unfold scan_moov
    rw [dif_pos (by omega), if_neg (by omega), if_neg (by omega), if_pos hover]
  | next pos h8 hsz hbound hty hrec ih =>
    unfold scan_moov
    rw [dif_pos (by omega), if_neg (by omega), if_neg (by omega), if_neg (by omega),
      if_neg hty]
    exact ih

/-- C5: for every container stream in which the box scan finds a `moov` box
at offset `p` with enough bytes for the inner header, and whose raw
creation-time and duration fields read `C` and `D`,
`get_video_start_time_blackvue` returns the 1904 epoch plus
`C * 1000 - D` milliseconds (the seconds-scaled creation time minus the raw
unscaled duration). -/
theorem C5_blackvue_start_time (s : List Nat) (p C D : Nat)
    (hscan : scan_moov s 0 = Except.ok (some p))
    (hlen : p + 36 ≤ s.length)
    (hC : be32 s (p + 20) = C) (hD : be32 s (p + 32) = D) :
    get_video_start_time_blackvue s
      = Except.ok (some (epoch1904
          + (((C : Int) * 1000 - (D : Int) : Int) : ℚ) / 1000)) := by
  unfold get_video_start_time_blackvue
  rw [hscan]
  show (if s.length < p + 36 then Except.error ()
      else Except.ok (some (epoch1904
        + (((be32 s (p + 20) : Int) * 1000 - (be32 s (p + 32) : Int) : Int) : ℚ) / 1000)))
    = _
  rw [if_neg (by omega), hC, hD]

/-- A minimal synthetic container: one `moov` box of size 36 whose inner
header carries creation time 5 and duration 100. -/
def sampleBV : List Nat :=
  [0, 0, 0, 36, 109, 111, 111, 118,
   0, 0, 0, 28, 109, 118, 104, 100,
   0, 0, 0, 0,
   0, 0, 0, 5,
   0, 0, 0, 0,
   0, 0, 3, 232,
   0, 0, 0, 100]

/-- C5 witness: on the synthetic container with raw creation time 5 and raw
duration 100, the result is the 1904 epoch plus 4900 milliseconds. -/
theorem C5_blackvue_start_time_witness :
    get_video_start_time_blackvue sampleBV
      = Except.ok (some (epoch1904 + 49 / 10)) := by
  have hscan : scan_moov sampleBV 0 = Except.ok (some 0) := by
    unfold scan_moov
    rw [dif_pos (by decide), if_neg (by decide), if_neg (by decide), if_neg (by decide),
      if_pos (by decide)]
  have h := C5_blackvue_start_time sampleBV 0 5 100 hscan (by decide)
    (by decide) (by decide)
  rw [h]
  norm_num

/-- C6 counterexample to the claim as stated: on the empty byte stream,
end-of-stream is reached before any `moov` box, yet the scanner returns the
value `None` instead of failing with an error. -/
theorem C6_clean_eof_counterexample :
    get_video_start_time_blackvue [] = Except.ok none ∧
    get_video_start_time_blackvue [] ≠ Except.error () := by
  have h : scan_moov [] 0 = Except.ok none := by
    unfold scan_moov
    rw [dif_neg (by decide)]
  have hres : get_video_start_time_blackvue [] = Except.ok none := by
    unfold get_video_start_time_blackvue
    rw [h]
  exact ⟨hres, fun hx => Except.noConfusion (hres.symm.trans hx)⟩

/-- C6 (amended): a read that would exceed stream bounds — while scanning
top-level boxes or while reading the `moov` inner header — makes
`get_video_start_time_blackvue` fail with an error; but when end-of-stream
is reached cleanly before any `moov` box it returns `None` without
failing. -/
theorem C6_scanner_bounds_behaviour :
    (∀ s : List Nat, CleanScan s 0 →
      get_video_start_time_blackvue s = Except.ok none) ∧
    (∀ s : List Nat, ScanOverrun s 0 →
      get_video_start_time_blackvue s = Except.error ()) ∧
    (∀ (s : List Nat) (p : Nat), scan_moov s 0 = Except.ok (some p) →
      s.length < p + 36 → get_video_start_time_blackvue s = Except.error ()) := by
  refine ⟨?_, ?_, ?_⟩
  · intro s h
    unfold get_video_start_time_blackvue
    rw [scan_moov_of_clean s 0 h]
  · intro s h
    unfold get_video_start_time_blackvue
    rw [scan_moov_of_overrun s 0 h]
  · intro s p hscan hshort
    unfold get_video_start_time_blackvue
    rw [hscan]
    show (if s.length < p + 36 then Except.error ()
        else Except.ok (some (epoch1904
          + (((be32 s (p + 20) : Int) * 1000 - (be32 s (p + 32) : Int) : Int) : ℚ) / 1000)))
      = _
    rw [if_pos hshort]

/-- C6 amended-claim witness: a single non-moov box scans to a clean `None`;
a box whose size exceeds the stream errors; a `moov` box too short for its
inner header errors. -/
theorem C6_scanner_bounds_behaviour_witness :
    get_video_start_time_blackvue [0, 0, 0, 8, 102, 114, 101, 101]
      = Except.ok none ∧
    get_video_start_time_blackvue [0, 0, 0, 9, 102, 114, 101, 101]
      = Except.error () ∧
    get_video_start_time_blackvue [0, 0, 0, 8, 109, 111, 111, 118]
      = Except.error () := by
  obtain ⟨h1, h2, h3⟩ := C6_scanner_bounds_behaviour
  refine ⟨h1 _ ?_, h2 _ ?_, h3 _ 0 ?_ (by decide)⟩
  · exact CleanScan.box 0 (by decide) (by decide) (by decide) (by decide)
      (CleanScan.eof _ (by decide))
  · exact ScanOverrun.payload 0 (by decide) (by decide) (by decide)
  · unfold scan_moov
    rw [dif_pos (by decide), if_neg (by decide), if_neg (by decide), if_neg (by decide),
      if_pos (by decide)]

/-- One attempted per-frame metadata write: the frame path, the timestamp
handed to the EXIF writer, and whether the write succeeded (the bare
`except` around the write swallows any failure and the loop continues). -/
structure FrameWrite where
  image : List Char
  timestamp : ℚ
  ok : Bool

/-- `insert_video_frame_timestamp` (process_video.py, lines 185-218), with
the directory's frame list and the EXIF writer's failure behaviour
(`writeFails`) as parameters.  An empty frame list is a warning and no
writes.  Otherwise all timestamps are derived up front by
`timestamps_from_filename` — a filename parse failure there propagates and
aborts with zero writes (`none`) — and only then is the writer invoked once
per (frame, timestamp) pair, each failure caught locally. -/
def insert_video_frame_timestamp (writeFails : List Char → Bool)
    (video_filename : List Char) (frame_list : List (List Char))
    (start_time interval adjustment : ℚ) : Option (List FrameWrite) :=
  if frame_list.isEmpty then some []
  else
    match timestamps_from_filename video_filename frame_list
        start_time interval adjustment with
    | none => none
    | some ts =>
      some ((frame_list.zip ts).map (fun p => ⟨p.1, p.2, !writeFails p.1⟩))

/-- The fallback branch of the start-time resolution in `extract_frames`:
probe-based `get_video_start_time`, defaulting to the UNIX epoch with a
warning (the Bool component) when it yields nothing. -/
def resolveFallback (isfile : Bool) (video : List ProbeStream) : ℚ × Bool :=
  match get_video_start_time isfile video with
  | some t => (t, false)
  | none => (0, true)

/-- Start-time resolution of `extract_frames` (process_video.py, lines
149-157): `if video_start_time:` — a *truthy* explicit start time, i.e. a
provided nonzero milliseconds value — is converted directly via
`utcfromtimestamp(ms / 1000.0)`; otherwise (absent or zero) the probe-based
fallback runs. -/
def extract_frames_start_time (video_start_time : Option Int) (isfile : Bool)
    (video : List ProbeStream) : ℚ × Bool :=
  match video_start_time with
  | some ms =>
    if ms ≠ 0 then ((ms : ℚ) / 1000, false)
    else resolveFallback isfile video
  | none => resolveFallback isfile video

/-- `extract_frames` (process_video.py, lines 119-166) after the ffmpeg
invocation: resolve the start time (with warning flag), then run
`insert_video_frame_timestamp` with it. -/
def extract_frames (writeFails : List Char → Bool) (video_start_time : Option Int)
    (isfile : Bool) (video : List ProbeStream) (video_filename : List Char)
    (frame_list : List (List Char)) (interval adjustment : ℚ) :
    (ℚ × Bool) × Option (List FrameWrite) :=
  (extract_frames_start_time video_start_time isfile video,
    insert_video_frame_timestamp writeFails video_filename frame_list
      (extract_frames_start_time video_start_time isfile video).1
      interval adjustment)

theorem timestamps_from_filename_length (vf : List Char)
    (frames : List (List Char)) (start interval adjustment : ℚ) (ts : List ℚ)
    (h : timestamps_from_filename vf frames start interval adjustment = some ts) :
    ts.length = frames.length := by
  induction frames generalizing ts with
  | nil =>
    rw [timestamps_from_filename] at h
    cases h
    rfl
  | cons g rest ih =>
    rw [timestamps_from_filename] at h
    cases h1 : timestamp_from_filename vf (pyBasename g) start interval adjustment with
    | none => rw [h1] at h; cases h
    | some t =>
      rw [h1] at h
      cases h2 : timestamps_from_filename vf rest start interval adjustment with
      | none => rw [h2] at h; cases h
      | some ts2 =>
        rw [h2] at h
        cases h
        simp [ih ts2 h2]

theorem insert_attempts (writeFails : List Char → Bool) (vf : List Char)
    (frames : List (List Char)) (start interval adjustment : ℚ) (ts : List ℚ)
    (hts : timestamps_from_filename vf frames start interval adjustment = some ts) :
    insert_video_frame_timestamp writeFails vf frames start interval adjustment
      = some ((frames.zip ts).map (fun p => ⟨p.1, p.2, !writeFails p.1⟩)) := by
  unfold insert_video_frame_timestamp
  cases frames with
  | nil => rfl
  | cons g rest =>
    rw [if_neg (by simp), hts]

theorem attempts_images (writeFails : List Char → Bool)
    (frames : List (List Char)) (ts : List ℚ) (hlen : frames.length ≤ ts.length) :
    (((frames.zip ts).map
        (fun p => (⟨p.1, p.2, !writeFails p.1⟩ : FrameWrite))).map FrameWrite.image)
      = frames := by
  rw [List.map_map]
  have h : (FrameWrite.image ∘ fun p : List Char × ℚ =>
      (⟨p.1, p.2, !writeFails p.1⟩ : FrameWrite)) = Prod.fst := rfl
  rw [h, List.map_fst_zip _ _ hlen]

theorem timestamps_from_filename_none_of_mem (vf : List Char)
    (frames : List (List Char)) (start interval adjustment : ℚ) (f : List Char)
    (hf : f ∈ frames)
    (hfail : timestamp_from_filename vf (pyBasename f) start interval adjustment
      = none) :
    timestamps_from_filename vf frames start interval adjustment = none := by
  induction frames with
  | nil => simp at hf
  | cons g rest ih =>
    rw [timestamps_from_filename]
    rcases List.mem_cons.mp hf with rfl | hmem
    · rw [hfail]
    · cases h1 : timestamp_from_filename vf (pyBasename g) start interval adjustment with
      | none => rfl
      | some t => rw [ih hmem]

/-- The UNIX epoch in the datetime model is 0. -/
theorem mkDT_epoch : mkDT 1970 1 1 0 0 0 = 0 := by
  have h : epochSeconds 1970 1 1 0 0 0 = 0 := by decide
  rw [mkDT, h]
  norm_num

/-- C7: with no explicit start time and a probe-based resolution yielding
nothing, `extract_frames` defaults the start time to the UNIX epoch
(1970-01-01T00:00:00Z), raises the degraded-mode warning, and still goes on
to attempt the metadata write on every sampled frame. -/
theorem C7_epoch_default_and_continue (writeFails : List Char → Bool)
    (isfile : Bool) (video : List ProbeStream) (vf : List Char)
    (frames : List (List Char)) (interval adjustment : ℚ) (ts : List ℚ)
    (hprobe : get_video_start_time isfile video = none)
    (hts : timestamps_from_filename vf frames 0 interval adjustment = some ts) :
    ∃ l, extract_frames writeFails none isfile video vf frames interval adjustment
        = ((mkDT 1970 1 1 0 0 0, true), some l) ∧
      l.map FrameWrite.image = frames := by
  have hstart : extract_frames_start_time none isfile video = (0, true) := by
    unfold extract_frames_start_time resolveFallback
    rw [hprobe]
  refine ⟨(frames.zip ts).map (fun p => ⟨p.1, p.2, !writeFails p.1⟩), ?_, ?_⟩
  · unfold extract_frames
    rw [hstart, mkDT_epoch]
    rw [insert_attempts writeFails vf frames 0 interval adjustment ts hts]
  · exact attempts_images writeFails frames ts
      (le_of_eq (timestamps_from_filename_length vf frames 0 interval adjustment
        ts hts).symm)

/-- C7 witness: a non-existent video file with no explicit start time stamps
its one sampled frame from the UNIX epoch, with the warning raised. -/
theorem C7_epoch_default_and_continue_witness :
    ∃ l, extract_frames (fun _ => false) none false [] (chars ("video"))
        [chars ("video_000001.jpg")] 2 1
        = ((mkDT 1970 1 1 0 0 0, true), some l) ∧
      l.map FrameWrite.image = [chars ("video_000001.jpg")] := by
  have hts := timestamps_from_filename_eval (chars ("video"))
    [(chars ("00000"), ['1'])] 0 2 1 (by decide) (by decide)
  have he : ([(chars ("00000"), ['1'])].map
      (fun p => frameName (chars ("video")) p.1 p.2))
      = [chars ("video_000001.jpg")] := by decide
  rw [he] at hts
  exact C7_epoch_default_and_continue (fun _ => false) false [] (chars ("video"))
    [chars ("video_000001.jpg")] 2 1 _ (by decide) hts

/-- The probe sample used to separate explicit-start-time handling from the
probe: it resolves to 2020-01-01T00:09:00Z. -/
theorem probe_start_time_sample :
    get_video_start_time true
        [⟨some (chars ("60.0")), some (chars ("2020-01-01 00:10:00"))⟩]
      = some (mkDT 2020 1 1 0 9 0) := by
  have h := get_video_start_time_eval [] (chars ("2020-01-01 00:10:00"))
    (chars ("60.0")) (mkDT 2020 1 1 0 10 0) 60 (Or.inl (by decide)) pyFloat?_sixty
  rw [h, mkDT_sample_sub]

/-- C8 counterexample: an explicitly supplied start time of 0 epoch
milliseconds is falsy in Python, so `extract_frames` ignores it and falls
back to probe-based resolution; with a probe reporting creation time
2020-01-01 00:10:00 and duration 60.0 the resolved start time is
2020-01-01T00:09:00Z — not `epoch + 0/1000` as the claim requires. -/
theorem C8_zero_explicit_start_counterexample :
    extract_frames_start_time (some 0) true
        [⟨some (chars ("60.0")), some (chars ("2020-01-01 00:10:00"))⟩]
      = (mkDT 2020 1 1 0 9 0, false) ∧
    mkDT 2020 1 1 0 9 0 ≠ (0 : ℚ) / 1000 := by
  constructor
  · simp only [extract_frames_start_time]
    rw [if_neg (by decide : ¬ ((0 : Int) ≠ 0))]
    unfold resolveFallback
    rw [probe_start_time_sample]
  · have h2 : epochSeconds 2020 1 1 0 9 0 = 1577837340 := by decide
    rw [mkDT, h2]
    norm_num

/-- C8 (amended): for every *nonzero* explicitly supplied start time in
epoch milliseconds, `extract_frames` converts it directly to
`epoch + millis/1000` with no other source consulted (the result is
independent of the probe); an explicitly supplied start time of 0 is treated
as absent, and resolution falls back to the probe-based path. -/
theorem C8_explicit_start_time (ms : Int) (hms : ms ≠ 0) (isfile : Bool)
    (video : List ProbeStream) :
    extract_frames_start_time (some ms) isfile video = ((ms : ℚ) / 1000, false) ∧
    extract_frames_start_time (some 0) isfile video
      = extract_frames_start_time none isfile video := by
  constructor
  · simp only [extract_frames_start_time]
    rw [if_pos hms]
  · simp only [extract_frames_start_time]
    rw [if_neg (by decide : ¬ ((0 : Int) ≠ 0))]

/-- C8 witness: explicit 5000 ms resolves to 5 s after the epoch whatever
the probe says; explicit 0 resolves exactly as an absent start time. -/
theorem C8_explicit_start_time_witness :
    extract_frames_start_time (some 5000) true
        [⟨some (chars ("60.0")), some (chars ("2020-01-01 00:10:00"))⟩]
      = (5, false) ∧
    extract_frames_start_time (some 0) true
        [⟨some (chars ("60.0")), some (chars ("2020-01-01 00:10:00"))⟩]
      = extract_frames_start_time none true
        [⟨some (chars ("60.0")), some (chars ("2020-01-01 00:10:00"))⟩] := by
  obtain ⟨h1, h2⟩ := C8_explicit_start_time 5000 (by decide) true
    [⟨some (chars ("60.0")), some (chars ("2020-01-01 00:10:00"))⟩]
  refine ⟨?_, h2⟩
  rw [h1]
  norm_num

/-- C9: whenever timestamp derivation for the frame list succeeds, the
metadata writer is invoked on every frame in order — whichever frames'
writes fail — and each frame's recorded outcome is exactly the writer's
behaviour on that frame, so one failing frame never prevents the others
from being stamped. -/
theorem C9_write_failures_are_local (writeFails : List Char → Bool)
    (vf : List Char) (frames : List (List Char))
    (start interval adjustment : ℚ) (ts : List ℚ)
    (hts : timestamps_from_filename vf frames start interval adjustment = some ts) :
    ∃ l, insert_video_frame_timestamp writeFails vf frames start interval adjustment
        = some l ∧
      l.map FrameWrite.image = frames ∧
      ∀ w ∈ l, w.ok = !writeFails w.image := by
  refine ⟨(frames.zip ts).map (fun p => ⟨p.1, p.2, !writeFails p.1⟩),
    insert_attempts writeFails vf frames start interval adjustment ts hts, ?_, ?_⟩
  · exact attempts_images writeFails frames ts
      (le_of_eq (timestamps_from_filename_length vf frames start interval adjustment
        ts hts).symm)
  · intro w hw
    obtain ⟨p, hp, rfl⟩ := List.mem_map.mp hw
    rfl

/-- C9 witness: five frames with the writer failing on frame 3: all five are
attempted, frames 1, 2, 4, 5 succeed, frame 3 alone fails. -/
theorem C9_write_failures_are_local_witness :
    ∃ l, insert_video_frame_timestamp
        (fun s => s == chars ("video_000003.jpg")) (chars ("video"))
        [chars ("video_000001.jpg"), chars ("video_000002.jpg"),
          chars ("video_000003.jpg"), chars ("video_000004.jpg"),
          chars ("video_000005.jpg")] 0 2 1
        = some l ∧
      l.map FrameWrite.image
        = [chars ("video_000001.jpg"), chars ("video_000002.jpg"),
            chars ("video_000003.jpg"), chars ("video_000004.jpg"),
            chars ("video_000005.jpg")] ∧
      ∀ w ∈ l, w.ok = !(w.image == chars ("video_000003.jpg")) := by
  have hts := timestamps_from_filename_eval (chars ("video"))
    [(chars ("00000"), ['1']), (chars ("00000"), ['2']), (chars ("00000"), ['3']),
      (chars ("00000"), ['4']), (chars ("00000"), ['5'])] 0 2 1
    (by decide) (by decide)
  have he : ([(chars ("00000"), ['1']), (chars ("00000"), ['2']),
      (chars ("00000"), ['3']), (chars ("00000"), ['4']),
      (chars ("00000"), ['5'])].map
        (fun p => frameName (chars ("video")) p.1 p.2))
      = [chars ("video_000001.jpg"), chars ("video_000002.jpg"),
          chars ("video_000003.jpg"), chars ("video_000004.jpg"),
          chars ("video_000005.jpg")] := by decide
  rw [he] at hts
  exact C9_write_failures_are_local (fun s => s == chars ("video_000003.jpg"))
    (chars ("video")) _ 0 2 1 _ hts

/-- C10: `insert_video_frame_timestamp` derives all timestamps before any
write, so a filename that fails to parse anywhere in the list aborts the
whole per-video operation with zero metadata writes performed. -/
theorem C10_parse_failure_aborts_all (writeFails : List Char → Bool)
    (vf : List Char) (frames : List (List Char))
    (start interval adjustment : ℚ) (f : List Char)
    (hf : f ∈ frames)
    (hfail : timestamp_from_filename vf (pyBasename f) start interval adjustment
      = none) :
    insert_video_frame_timestamp writeFails vf frames start interval adjustment
      = none := by
  unfold insert_video_frame_timestamp
  cases frames with
  | nil => simp at hf
  | cons g rest =>
    rw [if_neg (by simp),
      timestamps_from_filename_none_of_mem vf (g :: rest) start interval adjustment
        f hf hfail]

/-- C10 witness: a malformed second filename aborts a two-frame batch with
no writes at all (the result is the propagated error, `none`). -/
theorem C10_parse_failure_aborts_all_witness :
    insert_video_frame_timestamp (fun _ => false) (chars ("video"))
        [chars ("video_000001.jpg"), chars ("video_abc.jpg")] 0 2 1 = none := by
  have hfail : timestamp_from_filename (chars ("video"))
      (pyBasename (chars ("video_abc.jpg"))) 0 2 1 = none := by
    have hb : pyBasename (chars ("video_abc.jpg")) = chars ("video_abc.jpg") := by
      decide
    have h1 : pyRstripSet jpgChars (chars ("video_abc.jpg")) = chars ("video_abc") := by
      decide
    have hsplit : chars ("video_abc") = (chars ("video") ++ ['_']) ++ chars ("abc") := by
      decide
    have h2 : pyRemoveAll (chars ("video") ++ ['_']) (chars ("video_abc"))
        = chars ("abc") := by
      rw [hsplit, pyRemoveAll_self_append _ _ (by decide)]
      exact pyRemoveAll_of_all_ne _ _ '_' (by decide) (by decide)
    have h3 : pyInt? (pyLstripSet ['0'] (chars ("abc"))) = none := by decide
    unfold timestamp_from_filename
    rw [hb, h1, h2, h3]
  exact C10_parse_failure_aborts_all (fun _ => false) (chars ("video"))
    [chars ("video_000001.jpg"), chars ("video_abc.jpg")] 0 2 1
    (chars ("video_abc.jpg")) (by decide) hfail

end ProcessVideo
